import Mathlib

/-!
Verification of the lgtm-cli configuration, credential-resolution and
parameter-parsing layer. Strings are modelled as lists of characters
(`Str`), environments and dictionaries as association lists in insertion
order, and fallible Python code as `Except String` values. ASCII text is
assumed where the source relies on Python regular expressions.
-/

deriving instance DecidableEq for Except

/-- Strings as explicit character lists, so substitution can be analysed
character by character. -/
abbrev Str := List Char

/-- Characters stripped by the Python str.strip() default set. -/
def pySpace (c : Char) : Bool :=
  c = ' ' || c = '\t' || c = '\n' || c = '\r' || c = Char.ofNat 11 || c = Char.ofNat 12

/-- Python str.strip(): remove leading and trailing whitespace. -/
def pyStrip (l : Str) : Str :=
  ((l.dropWhile pySpace).reverse.dropWhile pySpace).reverse

/-- Boolean test that the first list starts with the second list of
characters (models Python str.startswith). -/
def strStarts : Str → Str → Bool
  | [], _ => true
  | _ :: _, [] => false
  | a :: ps, b :: ss => a = b && strStarts ps ss

/-- Scan up to the first closing brace: on success returns the characters
before the brace and the remainder after it (models the regex fragment
that reads the group of a dollar-brace placeholder). -/
def takeToBrace : Str → Option (Str × Str)
  | [] => none
  | c :: rest =>
    if c = '}' then some ([], rest)
    else
      match takeToBrace rest with
      | some (v, a) => some (c :: v, a)
      | none => none

/-- Outcome of running the external secret-manager tool (the op CLI):
standard output on success, a missing binary, or a non-zero exit with
standard-error text. -/
inductive OpOutcome where
  | success (stdout : Str)
  | missing
  | exitErr (stderr : Str)
deriving DecidableEq

/-- The runner abstracts subprocess.run over the op binary. -/
abbrev OpRunner := Str → OpOutcome

/-- Error text raised when the op binary is absent (FileNotFoundError
branch of resolve_1password_ref). -/
def opNotFoundMsg : String :=
  "1Password CLI (op) not found. Install it from https://1password.com/downloads/command-line/"

/-- Error text raised on a non-zero op exit, carrying the stripped
standard-error text (CalledProcessError branch). -/
def opFailMsg (stderr : Str) : String :=
  "Failed to read from 1Password: " ++ String.mk (pyStrip stderr)

/-- config.resolve_1password_ref: run the op CLI on the literal reference
and return its stripped standard output, or a RuntimeError message. -/
def resolve_1password_ref (r : OpRunner) (ref : Str) : Except String Str :=
  match r ref with
  | .success out => .ok (pyStrip out)
  | .missing => .error opNotFoundMsg
  | .exitErr e => .error (opFailMsg e)

/-- The scheme marker of an external reference. -/
def opScheme : Str := ("op://").data

/-- A brace group is an external reference when it starts with the scheme
and has at least one character after it (the regex op-colon-slash-slash
followed by one or more non-brace characters). -/
def opRefOk (v : Str) : Bool :=
  strStarts opScheme v && decide (6 ≤ v.length)

/-- Process environment, name to value, as an association list. -/
abbrev Env := List (Str × Str)

/-- Fuel-indexed first substitution pass of config.resolve_secret: replace
each embedded dollar-brace external reference by the resolved secret,
scanning left to right and never rescanning replaced text, exactly as
re.sub does. The fuel is the length of the scanned text. -/
def substOpF (r : OpRunner) : Nat → Str → Except String Str
  | _, [] => .ok []
  | 0, l => .ok l
  | f + 1, c :: rest =>
    if c = '$' ∧ rest.head? = some '{' then
      match takeToBrace rest.tail with
      | some (v, a) =>
        if opRefOk v then
          match resolve_1password_ref r v with
          | .error e => .error e
          | .ok sec => (substOpF r f a).map (fun t => sec ++ t)
        else (substOpF r f rest).map (fun t => '$' :: t)
      | none => (substOpF r f rest).map (fun t => '$' :: t)
    else (substOpF r f rest).map (fun t => c :: t)

/-- First substitution pass at full fuel. -/
def substOp (r : OpRunner) (l : Str) : Except String Str :=
  substOpF r l.length l

/-- Fuel-indexed second substitution pass of config.resolve_secret:
replace each dollar-brace group by the environment value of that name, or
the empty string when unset; replaced text is not rescanned. -/
def substEnvF (env : Env) : Nat → Str → Str
  | _, [] => []
  | 0, l => l
  | f + 1, c :: rest =>
    if c = '$' ∧ rest.head? = some '{' then
      match takeToBrace rest.tail with
      | some (v, a) =>
        if v = [] then '$' :: substEnvF env f rest
        else ((env.lookup v).getD []) ++ substEnvF env f a
      | none => '$' :: substEnvF env f rest
    else c :: substEnvF env f rest

/-- Second substitution pass at full fuel. -/
def substEnv (env : Env) (l : Str) : Str :=
  substEnvF env l.length l

/-- config.resolve_secret: a value that is entirely an external reference
is resolved by the op CLI; otherwise embedded external references are
substituted first and environment variables second. -/
def resolve_secret (env : Env) (r : OpRunner) (value : Str) : Except String Str :=
  if strStarts opScheme value then resolve_1password_ref r value
  else
    match substOp r value with
    | .error e => .error e
    | .ok v1 => .ok (substEnv env v1)

/-- config.ServiceConfig: connection data of one backend endpoint. A
Python None field is an absent Option. Headers keep insertion order. -/
structure ServiceConfig where
  url : String
  token : Option String := none
  username : Option String := none
  headers : Option (List (String × String)) := none
deriving DecidableEq

/-- config.InstanceConfig: a named grouping of up to four backends. -/
structure InstanceConfig where
  name : String
  loki : Option ServiceConfig := none
  prometheus : Option ServiceConfig := none
  tempo : Option ServiceConfig := none
  alerting : Option ServiceConfig := none
deriving DecidableEq

/-- config.Config: the root configuration object; instances keep the
insertion (file) order of the underlying dict. -/
structure Config where
  version : String
  default_instance : Option String
  instances : List (String × InstanceConfig)
deriving DecidableEq

/-- Observable outcome of Config.get_instance: a returned instance, the
handled ValueError, or the unhandled exceptions the Python code can
raise (KeyError on the default lookup, StopIteration on an empty dict). -/
inductive GetResult where
  | ok (i : InstanceConfig)
  | valueError (msg : String)
  | keyError (k : String)
  | stopIteration
deriving DecidableEq

/-- Message of the handled ValueError of get_instance (the source wraps
the name in single quotation marks; punctuation is elided here). -/
def instanceNotFoundMsg (n : String) : String :=
  "Instance " ++ n ++ " not found in config"

/-- Python truthiness of an optional string: None and the empty string
are both falsy. -/
def truthyStrOpt : Option String → Bool
  | none => false
  | some s => s != ""

/-- Config.get_instance, translated branch by branch: a truthy name is
looked up with a handled not-found error; otherwise a truthy
default_instance is looked up by raw indexing (KeyError when absent);
otherwise the first instance in insertion order (StopIteration when the
dict is empty). -/
def get_instance (cfg : Config) (name : Option String) : GetResult :=
  if truthyStrOpt name then
    match cfg.instances.lookup (name.getD "") with
    | some i => .ok i
    | none => .valueError (instanceNotFoundMsg (name.getD ""))
  else if truthyStrOpt cfg.default_instance then
    match cfg.instances.lookup (cfg.default_instance.getD "") with
    | some i => .ok i
    | none => .keyError (cfg.default_instance.getD "")
  else
    match cfg.instances with
    | (_, i) :: _ => .ok i
    | [] => .stopIteration

/-- One backend section of the YAML document as handed to
parse_service_config: each key either absent or bound to a string, and a
headers mapping in insertion order. -/
structure RawService where
  url : Option String := none
  token : Option String := none
  username : Option String := none
  headers : List (String × String) := []
deriving DecidableEq

/-- resolve_secret on Lean strings. -/
def resolveSecretStr (env : Env) (r : OpRunner) (s : String) : Except String String :=
  (resolve_secret env r s.data).map String.mk

/-- The empty backend section (a falsy Python dict). -/
def emptyRawService : RawService := {}

/-- config.parse_service_config: a missing or falsy section gives no
ServiceConfig; otherwise url, token, username and each header value pass
through resolve_secret, a falsy (absent or empty) token or username
stays None, an absent url becomes the empty string, and an empty
resolved headers dict collapses to None. -/
def parse_service_config (env : Env) (r : OpRunner) (d : Option RawService) :
    Except String (Option ServiceConfig) :=
  match d with
  | none => .ok none
  | some data =>
    if data = emptyRawService then .ok none
    else do
      let url ← resolveSecretStr env r (data.url.getD "")
      let token ←
        match data.token with
        | some t => if t ≠ "" then (resolveSecretStr env r t).map some else pure none
        | none => pure none
      let username ←
        match data.username with
        | some u => if u ≠ "" then (resolveSecretStr env r u).map some else pure none
        | none => pure none
      let hdrs ← data.headers.mapM
        (fun kv => (resolveSecretStr env r kv.2).map (fun rv => (kv.1, rv)))
      pure (some { url := url, token := token, username := username,
                   headers := if hdrs = [] then none else some hdrs })

/-- UTF-8 encoding of one character (Python str.encode default). -/
def utf8Char (c : Char) : List Nat :=
  let n := c.toNat
  if n < 128 then [n]
  else if n < 2048 then [192 + n / 64, 128 + n % 64]
  else if n < 65536 then [224 + n / 4096, 128 + (n / 64) % 64, 128 + n % 64]
  else [240 + n / 262144, 128 + (n / 4096) % 64, 128 + (n / 64) % 64, 128 + n % 64]

/-- UTF-8 encoding of a character list. -/
def utf8Bytes (l : Str) : List Nat :=
  l.flatMap utf8Char

/-- The base64 alphabet. -/
def b64Table : Str :=
  ("ABCDEFGHIJKLMNOPQRSTUVWXYZabcdefghijklmnopqrstuvwxyz0123456789+/").data

/-- Character of a six-bit group. -/
def b64Char (n : Nat) : Char :=
  b64Table.getD n 'A'

/-- RFC 4648 base64 of a byte list (base64.b64encode). -/
def b64EncodeBytes : List Nat → Str
  | [] => []
  | [a] => [b64Char (a / 4), b64Char (a % 4 * 16), '=', '=']
  | [a, b] => [b64Char (a / 4), b64Char (a % 4 * 16 + b / 16), b64Char (b % 16 * 4), '=']
  | a :: b :: c :: rest =>
    b64Char (a / 4) :: b64Char (a % 4 * 16 + b / 16) ::
      b64Char (b % 16 * 4 + c / 64) :: b64Char (c % 64) :: b64EncodeBytes rest

/-- base64.b64encode of the UTF-8 bytes of a string, decoded back to
text (the Python encode-b64encode-decode chain). -/
def b64encodeStr (s : String) : String :=
  String.mk (b64EncodeBytes (utf8Bytes s.data))

/-- Python dict assignment on an insertion-ordered association list: an
existing key keeps its position and gets the new value, a new key is
appended. -/
def dictSet (d : List (String × String)) (k v : String) : List (String × String) :=
  match d with
  | [] => [(k, v)]
  | (k1, v1) :: rest => if k1 = k then (k, v) :: rest else (k1, v1) :: dictSet rest k v

/-- client.LGTMClient._get_headers: Accept plus the derived credential
header (Basic when username and token are both truthy, Bearer when only
token is truthy, none otherwise), then dict.update with the custom
headers. -/
def getHeaders (cfg : ServiceConfig) : List (String × String) :=
  let base := [("Accept", "application/json")]
  let withAuth :=
    if truthyStrOpt cfg.username && truthyStrOpt cfg.token then
      dictSet base "Authorization"
        ("Basic " ++ b64encodeStr (cfg.username.getD "" ++ ":" ++ cfg.token.getD ""))
    else if truthyStrOpt cfg.token then
      dictSet base "Authorization" ("Bearer " ++ cfg.token.getD "")
    else base
  (cfg.headers.getD []).foldl (fun d kv => dictSet d kv.1 kv.2) withAuth

/-- client.LGTMClient base URL: the configured URL with every trailing
slash removed (Python str.rstrip with the slash character set). -/
def base_url (u : Str) : Str :=
  (u.reverse.dropWhile (fun c => c = '/')).reverse

/-- cli.parse_matcher result record. -/
structure Matcher where
  name : Str
  value : Str
  isRegex : Bool
  isEqual : Bool
deriving DecidableEq

/-- Characters that may not occur in a matcher name (the negated class
of the matcher regex). -/
def matcherOpChars : List Char := ['=', '!', '~']

/-- True when the character may be part of a matcher name. -/
def matcherNonOp (c : Char) : Bool :=
  decide (c ∉ matcherOpChars)

/-- Message of the BadParameter error of parse_matcher (quotation marks
of the source elided). -/
def invalidMatcherMsg (s : Str) : String :=
  "Invalid matcher format: " ++ String.mk s ++ ". Use format like label=value or label=~regex"

/-- The four matcher operators, in the alternation order of the regex. -/
def matcherOps : List Str :=
  [("=~").data, ("!~").data, ("!=").data, ("=").data]

/-- cli.parse_matcher: a maximal nonempty operator-free leading segment, then one
of the operators with the two-character ones preferred, then the rest as
value; isRegex for the tilde operators, isEqual for the equality ones. -/
def parse_matcher (s : Str) : Except String Matcher :=
  let nm := s.takeWhile matcherNonOp
  let rest := s.dropWhile matcherNonOp
  if nm = [] then .error (invalidMatcherMsg s)
  else
    match rest with
    | '=' :: '~' :: v => .ok { name := nm, value := v, isRegex := true, isEqual := true }
    | '!' :: '~' :: v => .ok { name := nm, value := v, isRegex := true, isEqual := false }
    | '!' :: '=' :: v => .ok { name := nm, value := v, isRegex := false, isEqual := false }
    | '=' :: v => .ok { name := nm, value := v, isRegex := false, isEqual := true }
    | _ => .error (invalidMatcherMsg s)

/-- Python str.lower restricted to ASCII letters, written as an explicit
table so that its action is easy to reason about. -/
def pyLowerChar (c : Char) : Char :=
  if c = 'A' then 'a' else if c = 'B' then 'b' else if c = 'C' then 'c'
  else if c = 'D' then 'd' else if c = 'E' then 'e' else if c = 'F' then 'f'
  else if c = 'G' then 'g' else if c = 'H' then 'h' else if c = 'I' then 'i'
  else if c = 'J' then 'j' else if c = 'K' then 'k' else if c = 'L' then 'l'
  else if c = 'M' then 'm' else if c = 'N' then 'n' else if c = 'O' then 'o'
  else if c = 'P' then 'p' else if c = 'Q' then 'q' else if c = 'R' then 'r'
  else if c = 'S' then 's' else if c = 'T' then 't' else if c = 'U' then 'u'
  else if c = 'V' then 'v' else if c = 'W' then 'w' else if c = 'X' then 'x'
  else if c = 'Y' then 'y' else if c = 'Z' then 'z' else c

/-- Numeric value of an ASCII digit string (Python int). -/
def digitsToNat (ds : Str) : Nat :=
  ds.foldl (fun a c => a * 10 + (c.toNat - 48)) 0

/-- The accepted duration unit characters. -/
def durUnits : List Char := ['s', 'm', 'h', 'd']

/-- Seconds in one duration unit. -/
def unitSeconds (u : Char) : Nat :=
  if u = 's' then 1 else if u = 'm' then 60 else if u = 'h' then 3600
  else if u = 'd' then 86400 else 0

/-- Message of the BadParameter error of parse_duration (quotation marks
of the source elided). -/
def invalidDurationMsg (s : Str) : String :=
  "Invalid duration format: " ++ String.mk s ++ ". Use format like 2h, 30m, 1d"

/-- The duration regex on an already lowercased string: a maximal
nonempty leading digit segment followed by exactly one unit character. -/
def durMatch (l : Str) : Option (Str × Char) :=
  let ds := l.takeWhile Char.isDigit
  match l.drop ds.length with
  | [u] => if ds ≠ [] ∧ u ∈ durUnits then some (ds, u) else none
  | _ => none

/-- cli.parse_duration: lowercase the input, match digits plus one unit,
and convert to a number of seconds (timedelta modelled in seconds). -/
def parse_duration (s : Str) : Except String Nat :=
  match durMatch (s.map pyLowerChar) with
  | some (ds, u) => .ok (digitsToNat ds * unitSeconds u)
  | none => .error (invalidDurationMsg s)

/-- The click default of the silence duration option. -/
def silenceDurationDefault : Str := ("2h").data

/-- Body of the silence-create POST request, with instants in Unix
seconds. -/
structure SilencePayload where
  matchers : List Matcher
  startsAt : Nat
  endsAt : Nat
  createdBy : String
  comment : String
deriving DecidableEq

/-- cli.alerts_silence_create up to the network call: parse every
matcher, parse the duration, and build the request payload; any parse
failure aborts before a payload exists. -/
def silence_create_payload (ms : List Str) (dur : Str) (now : Nat)
    (createdBy comment : String) : Except String SilencePayload := do
  let parsed ← ms.mapM parse_matcher
  let d ← parse_duration dur
  pure { matchers := parsed, startsAt := now, endsAt := now + d,
         createdBy := createdBy, comment := comment }

/-- Sample instance used by concrete configurations. -/
def instA : InstanceConfig := { name := "a" }

/-- Sample instance used by concrete configurations. -/
def instB : InstanceConfig := { name := "b" }

/-- A configuration with one instance and no default. -/
def cfgOneInstance : Config :=
  { version := "1", default_instance := none, instances := [("a", instA)] }

/-- A configuration whose default_instance is the empty string, a key
not present among the instances. -/
def cfgEmptyDefault : Config :=
  { version := "1", default_instance := some "", instances := [("a", instA)] }

/-- A configuration with no instances at all. -/
def cfgNoInstances : Config :=
  { version := "1", default_instance := none, instances := [] }

/-- A configuration whose default_instance names a key that is absent
from the instances mapping. -/
def cfgBadDefault : Config :=
  { version := "1", default_instance := some "zzz", instances := [("a", instA)] }

/-- A configuration with two instances and a valid default naming the
second one. -/
def cfgTwoWithDefault : Config :=
  { version := "1", default_instance := some "b",
    instances := [("a", instA), ("b", instB)] }

/-- A runner that knows one reference and reports the binary missing on
any other. -/
def runnerSecret : OpRunner := fun ref =>
  if ref = ("op://v/i/f").data then .success (("  s3cret  ").data) else .missing

/-- A runner whose resolved secret itself contains an environment
placeholder. -/
def runnerPlaceholder : OpRunner := fun ref =>
  if ref = ("op://x").data then .success (("${FOO}").data) else .missing

/-- A runner for which the binary is always missing. -/
def runnerMissing : OpRunner := fun _ => .missing

/-- A runner that always fails with a non-zero exit. -/
def runnerFailing : OpRunner := fun _ => .exitErr (("bad ref\n").data)

/-- An environment binding FOO to bar. -/
def envFoo : Env := [(("FOO").data, ("bar").data)]

/-- An environment where the value of A is itself a placeholder and B is
also bound. -/
def envNested : Env := [(("A").data, ("${B}").data), (("B").data, ("x").data)]

example : resolve_secret envFoo runnerMissing (("${FOO}").data) = .ok (("bar").data) := by decide

example : resolve_secret envFoo runnerMissing (("${MISSING}").data) = .ok ([]) := by decide

example : resolve_secret envFoo runnerPlaceholder (("${op://x}").data) = .ok (("bar").data) := by decide

example : resolve_secret envFoo runnerSecret (("op://v/i/f").data) = .ok (("s3cret").data) := by decide

example : parse_matcher (("alertname=HighCPU").data) =
    .ok { name := ("alertname").data, value := ("HighCPU").data,
          isRegex := false, isEqual := true } := by decide

example : parse_matcher (("severity=~warning|critical").data) =
    .ok { name := ("severity").data, value := ("warning|critical").data,
          isRegex := true, isEqual := true } := by decide

example : parse_matcher (("a=~b").data) =
    .ok { name := ("a").data, value := ("b").data, isRegex := true, isEqual := true } := by decide

example : parse_duration (("2h").data) = .ok 7200 := by decide

example : parse_duration (("2H").data) = .ok 7200 := by decide

example : (parse_duration (("2x").data)).isOk = false := by decide

example : base_url (("http://x//").data) = ("http://x").data := by decide

example : get_instance cfgOneInstance (some "") = .ok instA := by decide

example : get_instance cfgEmptyDefault none = .ok instA := by decide

example : getHeaders { url := "u", token := some "t", username := some "" } =
    [("Accept", "application/json"), ("Authorization", "Bearer t")] := by decide

theorem takeToBrace_append (v a : Str) (h : '}' ∉ v) :
    takeToBrace (v ++ '}' :: a) = some (v, a) := by
  induction v with
  | nil => simp [takeToBrace]
  | cons c t ih =>
    have hc : c ≠ '}' := fun e => h (e ▸ List.mem_cons_self c t)
    have ht : '}' ∉ t := fun m => h (List.mem_cons_of_mem c m)
    simp [takeToBrace, hc, ih ht]

theorem takeToBrace_length :
    ∀ l v a : Str, takeToBrace l = some (v, a) → a.length < l.length := by
  intro l
  induction l with
  | nil => intro v a h; simp [takeToBrace] at h
  | cons c rest ih =>
    intro v a h
    by_cases hc : c = '}'
    · simp only [takeToBrace, if_pos hc, Option.some.injEq, Prod.mk.injEq] at h
      obtain ⟨h1, h2⟩ := h
      subst h2
      simp
    · simp only [takeToBrace, if_neg hc] at h
      rcases htb : takeToBrace rest with _ | ⟨v1, a1⟩
      · rw [htb] at h; simp at h
      · rw [htb] at h
        simp only [Option.some.injEq, Prod.mk.injEq] at h
        obtain ⟨h1, h2⟩ := h
        subst h2
        have := ih v1 a1 htb
        simp only [List.length_cons]
        omega

theorem substOpF_fuel (r : OpRunner) :
    ∀ f g l, l.length ≤ f → l.length ≤ g → substOpF r f l = substOpF r g l := by
  intro f
  induction f with
  | zero =>
    intro g l hf _
    have hl : l = [] := List.eq_nil_of_length_eq_zero (Nat.le_zero.mp hf)
    subst hl
    cases g <;> simp [substOpF]
  | succ f ih =>
    intro g l hf hg
    cases l with
    | nil => cases g <;> simp [substOpF]
    | cons c rest =>
      cases g with
      | zero => simp at hg
      | succ g1 =>
        have h1 : rest.length ≤ f := by simpa using hf
        have h2 : rest.length ≤ g1 := by simpa using hg
        simp only [substOpF]
        by_cases hc : c = '$' ∧ rest.head? = some '{'
        · rw [if_pos hc, if_pos hc]
          rcases htb : takeToBrace rest.tail with _ | ⟨v, a⟩
          · simp only [htb, ih g1 rest h1 h2]
          · have ha : a.length < rest.tail.length := takeToBrace_length _ _ _ htb
            have hta : rest.tail.length ≤ rest.length := by
              cases rest <;> simp
            have ha1 : a.length ≤ f := by omega
            have ha2 : a.length ≤ g1 := by omega
            simp only [htb, ih g1 rest h1 h2, ih g1 a ha1 ha2]
        · rw [if_neg hc, if_neg hc, ih g1 rest h1 h2]

theorem substOpF_pass (r : OpRunner) :
    ∀ f l, l.length ≤ f → (∀ c ∈ l, c ≠ '$') → substOpF r f l = .ok l := by
  intro f
  induction f with
  | zero =>
    intro l hf _
    have hl : l = [] := List.eq_nil_of_length_eq_zero (Nat.le_zero.mp hf)
    subst hl
    simp [substOpF]
  | succ f ih =>
    intro l hf h
    cases l with
    | nil => simp [substOpF]
    | cons c rest =>
      have hc : c ≠ '$' := h c (List.mem_cons_self c rest)
      have hcond : ¬(c = '$' ∧ rest.head? = some '{') := fun hp => hc hp.1
      simp only [substOpF, if_neg hcond]
      rw [ih rest (by simpa using hf) (fun x hx => h x (List.mem_cons_of_mem c hx))]
      rfl

theorem substOp_pass (r : OpRunner) (l : Str) (h : ∀ c ∈ l, c ≠ '$') :
    substOp r l = .ok l :=
  substOpF_pass r l.length l le_rfl h

theorem substOpF_braceMatch (r : OpRunner) (f : Nat) (v a : Str) (hbr : '}' ∉ v)
    (hok : opRefOk v = true) :
    substOpF r (f + 1) ('$' :: '{' :: (v ++ '}' :: a)) =
      match resolve_1password_ref r v with
      | .error e => .error e
      | .ok sec => (substOpF r f a).map (fun t => sec ++ t) := by
  simp only [substOpF]
  rw [if_pos (show True ∧ ('{' :: (v ++ '}' :: a)).head? = some '{' from ⟨trivial, rfl⟩)]
  simp only [List.tail_cons, takeToBrace_append v a hbr]
  rw [if_pos hok]

theorem substOpF_braceNoMatch (r : OpRunner) (f : Nat) (v a : Str) (hbr : '}' ∉ v)
    (hok : opRefOk v = false) :
    substOpF r (f + 1) ('$' :: '{' :: (v ++ '}' :: a)) =
      (substOpF r f ('{' :: (v ++ '}' :: a))).map (fun t => '$' :: t) := by
  simp only [substOpF]
  rw [if_pos (show True ∧ ('{' :: (v ++ '}' :: a)).head? = some '{' from ⟨trivial, rfl⟩)]
  simp only [List.tail_cons, takeToBrace_append v a hbr, hok, Bool.false_eq_true, if_false]

theorem substOp_matchFront (r : OpRunner) (v a : Str) (hbr : '}' ∉ v)
    (hok : opRefOk v = true) :
    substOp r ('$' :: '{' :: (v ++ '}' :: a)) =
      match resolve_1password_ref r v with
      | .error e => .error e
      | .ok sec => (substOp r a).map (fun t => sec ++ t) := by
  unfold substOp
  have hl : ('$' :: '{' :: (v ++ '}' :: a)).length = ((v ++ '}' :: a).length + 1) + 1 := by
    simp
  rw [hl, substOpF_braceMatch r ((v ++ '}' :: a).length + 1) v a hbr hok]
  rcases hres : resolve_1password_ref r v with e | sec
  · rfl
  · have hlen : a.length ≤ (v ++ '}' :: a).length + 1 := by
      simp [List.length_append]
      omega
    rw [substOpF_fuel r ((v ++ '}' :: a).length + 1) a.length a hlen le_rfl]

theorem substOp_nomatchFront (r : OpRunner) (v a : Str) (hbr : '}' ∉ v)
    (hok : opRefOk v = false) :
    substOp r ('$' :: '{' :: (v ++ '}' :: a)) =
      (substOp r ('{' :: (v ++ '}' :: a))).map (fun t => '$' :: t) := by
  unfold substOp
  have hl : ('$' :: '{' :: (v ++ '}' :: a)).length = ((v ++ '}' :: a).length + 1) + 1 := by
    simp
  rw [hl, substOpF_braceNoMatch r ((v ++ '}' :: a).length + 1) v a hbr hok]
  rfl

theorem substEnvF_fuel (env : Env) :
    ∀ f g l, l.length ≤ f → l.length ≤ g → substEnvF env f l = substEnvF env g l := by
  intro f
  induction f with
  | zero =>
    intro g l hf _
    have hl : l = [] := List.eq_nil_of_length_eq_zero (Nat.le_zero.mp hf)
    subst hl
    cases g <;> simp [substEnvF]
  | succ f ih =>
    intro g l hf hg
    cases l with
    | nil => cases g <;> simp [substEnvF]
    | cons c rest =>
      cases g with
      | zero => simp at hg
      | succ g1 =>
        have h1 : rest.length ≤ f := by simpa using hf
        have h2 : rest.length ≤ g1 := by simpa using hg
        simp only [substEnvF]
        by_cases hc : c = '$' ∧ rest.head? = some '{'
        · rw [if_pos hc, if_pos hc]
          rcases htb : takeToBrace rest.tail with _ | ⟨v, a⟩
          · simp only [htb, ih g1 rest h1 h2]
          · have ha : a.length < rest.tail.length := takeToBrace_length _ _ _ htb
            have hta : rest.tail.length ≤ rest.length := by
              cases rest <;> simp
            have ha1 : a.length ≤ f := by omega
            have ha2 : a.length ≤ g1 := by omega
            simp only [htb, ih g1 rest h1 h2, ih g1 a ha1 ha2]
        · rw [if_neg hc, if_neg hc, ih g1 rest h1 h2]

theorem substEnvF_pass (env : Env) :
    ∀ f l, l.length ≤ f → (∀ c ∈ l, c ≠ '$') → substEnvF env f l = l := by
  intro f
  induction f with
  | zero =>
    intro l hf _
    have hl : l = [] := List.eq_nil_of_length_eq_zero (Nat.le_zero.mp hf)
    subst hl
    simp [substEnvF]
  | succ f ih =>
    intro l hf h
    cases l with
    | nil => simp [substEnvF]
    | cons c rest =>
      have hc : c ≠ '$' := h c (List.mem_cons_self c rest)
      have hcond : ¬(c = '$' ∧ rest.head? = some '{') := fun hp => hc hp.1
      simp only [substEnvF, if_neg hcond]
      rw [ih rest (by simpa using hf) (fun x hx => h x (List.mem_cons_of_mem c hx))]

theorem substEnv_pass (env : Env) (l : Str) (h : ∀ c ∈ l, c ≠ '$') :
    substEnv env l = l :=
  substEnvF_pass env l.length l le_rfl h

theorem substEnvF_braceMatch (env : Env) (f : Nat) (v a : Str) (hbr : '}' ∉ v)
    (hv : v ≠ []) :
    substEnvF env (f + 1) ('$' :: '{' :: (v ++ '}' :: a)) =
      ((env.lookup v).getD []) ++ substEnvF env f a := by
  simp only [substEnvF]
  rw [if_pos (show True ∧ ('{' :: (v ++ '}' :: a)).head? = some '{' from ⟨trivial, rfl⟩)]
  simp only [List.tail_cons, takeToBrace_append v a hbr, if_neg hv]

theorem substEnv_matchFront (env : Env) (v a : Str) (hbr : '}' ∉ v) (hv : v ≠ []) :
    substEnv env ('$' :: '{' :: (v ++ '}' :: a)) =
      ((env.lookup v).getD []) ++ substEnv env a := by
  unfold substEnv
  have hl : ('$' :: '{' :: (v ++ '}' :: a)).length = ((v ++ '}' :: a).length + 1) + 1 := by
    simp
  rw [hl, substEnvF_braceMatch env ((v ++ '}' :: a).length + 1) v a hbr hv]
  have hlen : a.length ≤ (v ++ '}' :: a).length + 1 := by
    simp [List.length_append]
    omega
  rw [substEnvF_fuel env ((v ++ '}' :: a).length + 1) a.length a hlen le_rfl]

theorem resolve_secret_envRef (env : Env) (r : OpRunner) (v : Str)
    (h1 : v ≠ []) (h2 : '}' ∉ v) (h3 : '$' ∉ v)
    (h4 : strStarts opScheme v = false) :
    resolve_secret env r ('$' :: '{' :: (v ++ '}' :: [])) =
      .ok ((env.lookup v).getD []) := by
  have hpre : strStarts opScheme ('$' :: '{' :: (v ++ '}' :: [])) = false := rfl
  have hok : opRefOk v = false := by
    simp [opRefOk, h4]
  have hnd : ∀ c ∈ ('{' :: (v ++ '}' :: ([] : Str))), c ≠ '$' := by
    intro c hc
    rcases List.mem_cons.mp hc with h | h
    · subst h; decide
    · rcases List.mem_append.mp h with h | h
      · exact fun e => h3 (e ▸ h)
      · simp only [List.mem_singleton, List.mem_cons, List.not_mem_nil, or_false] at h
        subst h; decide
  have hsub : substOp r ('$' :: '{' :: (v ++ '}' :: [])) =
      .ok ('$' :: '{' :: (v ++ '}' :: [])) := by
    rw [substOp_nomatchFront r v [] h2 hok, substOp_pass r _ hnd]
    rfl
  have henv : substEnv env ('$' :: '{' :: (v ++ '}' :: [])) =
      (env.lookup v).getD [] := by
    rw [substEnv_matchFront env v [] h2 h1]
    simp [substEnv, substEnvF]
  unfold resolve_secret
  rw [if_neg (by simp [hpre])]
  simp only [hsub, henv]

/-- C3: environment-variable substitution in resolve_secret. For every
environment and every variable name (nonempty, without closing brace or
dollar characters, and not an external reference), resolving the
dollar-brace form of that name yields the value of the variable, and the
empty string when the variable is unset; no error is possible, whatever
the state of the external runner. -/
theorem c3_env_substitution (env : Env) (r : OpRunner) (v : Str)
    (h1 : v ≠ []) (h2 : '}' ∉ v) (h3 : '$' ∉ v)
    (h4 : strStarts opScheme v = false) :
    resolve_secret env r ('$' :: '{' :: (v ++ '}' :: [])) =
      .ok ((env.lookup v).getD []) :=
  resolve_secret_envRef env r v h1 h2 h3 h4

/-- Witness for C3 at the two inputs of the spec: FOO bound to bar gives
bar, and an unset MISSING gives the empty string without an error. -/
theorem c3_env_substitution_witness :
    resolve_secret envFoo runnerMissing (("${FOO}").data) = .ok (("bar").data) ∧
    resolve_secret envFoo runnerMissing (("${MISSING}").data) = .ok [] := by
  constructor
  · exact c3_env_substitution envFoo runnerMissing (("FOO").data)
      (by decide) (by decide) (by decide) (by decide)
  · exact c3_env_substitution envFoo runnerMissing (("MISSING").data)
      (by decide) (by decide) (by decide) (by decide)

theorem strStarts_self_append (p t : Str) : strStarts p (p ++ t) = true := by
  induction p with
  | nil => rfl
  | cons a ps ih => simp [strStarts, ih]

theorem resolve_secret_opRef (env : Env) (r : OpRunner) (u out : Str)
    (hu : u ≠ []) (hbru : '}' ∉ u)
    (hsucc : r (opScheme ++ u) = .success out) :
    resolve_secret env r ('$' :: '{' :: ((opScheme ++ u) ++ '}' :: [])) =
      .ok (substEnv env (pyStrip out)) := by
  have hbr : '}' ∉ opScheme ++ u := by
    intro hm
    rcases List.mem_append.mp hm with h | h
    · revert h; decide
    · exact hbru h
  have hok : opRefOk (opScheme ++ u) = true := by
    have h1 : 0 < u.length := List.length_pos.mpr hu
    have h2 : (opScheme ++ u).length = 5 + u.length := by
      rw [List.length_append]
      rfl
    simp only [opRefOk, strStarts_self_append, Bool.true_and, h2,
      decide_eq_true_eq]
    omega
  have hpre : strStarts opScheme ('$' :: '{' :: ((opScheme ++ u) ++ '}' :: [])) =
      false := rfl
  have hpre2 : ¬ (strStarts opScheme
      ('$' :: '{' :: ((opScheme ++ u) ++ '}' :: [])) = true) := by
    rw [hpre]
    simp
  unfold resolve_secret
  rw [if_neg hpre2]
  have hsub : substOp r ('$' :: '{' :: ((opScheme ++ u) ++ '}' :: [])) =
      .ok (pyStrip out) := by
    rw [substOp_matchFront r (opScheme ++ u) [] hbr hok]
    unfold resolve_1password_ref
    rw [hsucc]
    simp [substOp, substOpF, Except.map]
  simp only [hsub]

/-- C4: external-reference resolution. A value starting with the scheme
is passed literally to the external tool: success yields the stripped
standard output, a missing binary or a non-zero exit yields a resolution
error carrying the tool message. An embedded dollar-brace reference is
resolved the same way, with the scheme pass running before and
independently of the environment, so no environment entry can shadow the
reference form. -/
theorem c4_external_refs (env : Env) (r : OpRunner) (ref out err : Str)
    (href : strStarts opScheme ref = true) :
    (r ref = .success out → resolve_secret env r ref = .ok (pyStrip out)) ∧
    (r ref = .missing → resolve_secret env r ref = .error opNotFoundMsg) ∧
    (r ref = .exitErr err → resolve_secret env r ref = .error (opFailMsg err)) ∧
    (∀ w, w ≠ [] → '}' ∉ w → (∀ c ∈ pyStrip out, c ≠ '$') →
      r (opScheme ++ w) = .success out →
      resolve_secret env r ('$' :: '{' :: ((opScheme ++ w) ++ '}' :: [])) =
        .ok (pyStrip out)) := by
  refine ⟨?_, ?_, ?_, ?_⟩
  · intro h
    unfold resolve_secret
    rw [if_pos href]
    unfold resolve_1password_ref
    rw [h]
  · intro h
    unfold resolve_secret
    rw [if_pos href]
    unfold resolve_1password_ref
    rw [h]
  · intro h
    unfold resolve_secret
    rw [if_pos href]
    unfold resolve_1password_ref
    rw [h]
  · intro w hw hbrw hout hsucc
    rw [resolve_secret_opRef env r w out hw hbrw hsucc,
      substEnv_pass env _ hout]

/-- Witness for C4: the sample runners at a concrete reference exercise
the success, missing-binary, non-zero-exit and embedded cases, the last
one under an environment that is powerless to shadow the reference. -/
theorem c4_external_refs_witness :
    resolve_secret [] runnerSecret (("op://v/i/f").data) = .ok (("s3cret").data) ∧
    resolve_secret [] runnerMissing (("op://v/i/f").data) = .error opNotFoundMsg ∧
    resolve_secret [] runnerFailing (("op://v/i/f").data) =
      .error (opFailMsg (("bad ref\n").data)) ∧
    resolve_secret envFoo runnerSecret (("${op://v/i/f}").data) = .ok (("s3cret").data) := by
  refine ⟨?_, ?_, ?_, ?_⟩
  · exact (c4_external_refs [] runnerSecret (("op://v/i/f").data) (("  s3cret  ").data)
      [] (by decide)).1 (by decide)
  · exact (c4_external_refs [] runnerMissing (("op://v/i/f").data) [] [] (by decide)).2.1
      (by decide)
  · exact (c4_external_refs [] runnerFailing (("op://v/i/f").data) [] (("bad ref\n").data)
      (by decide)).2.2.1 (by decide)
  · exact (c4_external_refs envFoo runnerSecret (("op://v/i/f").data) (("  s3cret  ").data)
      [] (by decide)).2.2.2 (("v/i/f").data) (by decide) (by decide) (by decide) (by decide)

/-- C10 (amended): the environment pass runs last, so an environment
value is inserted verbatim and never re-scanned, whatever placeholders
it contains; the output of an embedded external-reference substitution,
however, is scanned by that subsequent environment pass, so dollar-brace
placeholders inside an external secret are expanded. -/
theorem c10_single_pass (env : Env) (r : OpRunner) (v w : Str)
    (h1 : v ≠ []) (h2 : '}' ∉ v) (h3 : '$' ∉ v)
    (h4 : strStarts opScheme v = false)
    (hlook : env.lookup v = some w) :
    resolve_secret env r ('$' :: '{' :: (v ++ '}' :: [])) = .ok w ∧
    (∀ u out, u ≠ [] → '}' ∉ u → r (opScheme ++ u) = .success out →
      resolve_secret env r ('$' :: '{' :: ((opScheme ++ u) ++ '}' :: [])) =
        .ok (substEnv env (pyStrip out))) := by
  constructor
  · rw [resolve_secret_envRef env r v h1 h2 h3 h4, hlook]
    rfl
  · intro u out hu hbru hsucc
    exact resolve_secret_opRef env r u out hu hbru hsucc

/-- Witness for the amended C10: with A bound to the literal text of a B
placeholder and B bound elsewhere, resolving the A placeholder returns
that literal text unexpanded. -/
theorem c10_single_pass_witness :
    resolve_secret envNested runnerMissing (("${A}").data) = .ok (("${B}").data) := by
  exact (c10_single_pass envNested runnerMissing (("A").data) (("${B}").data)
    (by decide) (by decide) (by decide) (by decide) (by decide)).1

/-- Counterexample to C10 as stated: text introduced by the embedded
external-reference substitution is re-scanned by the environment pass.
The external secret here is the literal text of a FOO placeholder and
FOO is bound to bar; the final result is bar, not the verbatim secret
text, so substituted text is not always left unscanned. -/
theorem c10_single_pass_cex :
    resolve_secret envFoo runnerPlaceholder (("${op://x}").data) = .ok (("bar").data) ∧
    (("bar").data : Str) ≠ ("${FOO}").data := by
  exact ⟨by decide, by decide⟩

/-- C1 (amended): instance selection by get_instance under Python
truthiness: a non-empty name must be a key of instances, else the
handled not-found error is raised, and when present that instance is
returned; with no name or an empty name, a non-empty default_instance
present among the keys selects that instance; otherwise the first
instance in insertion order is returned. -/
theorem c1_get_instance (cfg : Config) :
    (∀ n, n ≠ "" → cfg.instances.lookup n = none →
      get_instance cfg (some n) = .valueError (instanceNotFoundMsg n)) ∧
    (∀ n i, n ≠ "" → cfg.instances.lookup n = some i →
      get_instance cfg (some n) = .ok i) ∧
    (∀ nm d i, truthyStrOpt nm = false → cfg.default_instance = some d → d ≠ "" →
      cfg.instances.lookup d = some i → get_instance cfg nm = .ok i) ∧
    (∀ nm k i rest, truthyStrOpt nm = false →
      truthyStrOpt cfg.default_instance = false →
      cfg.instances = (k, i) :: rest → get_instance cfg nm = .ok i) := by
  refine ⟨?_, ?_, ?_, ?_⟩
  · intro n hn hlk
    unfold get_instance
    rw [if_pos (show truthyStrOpt (some n) = true by simp [truthyStrOpt, hn])]
    simp [hlk]
  · intro n i hn hlk
    unfold get_instance
    rw [if_pos (show truthyStrOpt (some n) = true by simp [truthyStrOpt, hn])]
    simp [hlk]
  · intro nm d i hnm hd hdne hlk
    unfold get_instance
    rw [if_neg (by simp [hnm])]
    rw [if_pos (show truthyStrOpt cfg.default_instance = true by
      simp [hd, truthyStrOpt, hdne])]
    simp [hd, hlk]
  · intro nm k i rest hnm hdef hins
    unfold get_instance
    rw [if_neg (by simp [hnm]), if_neg (by simp [hdef]), hins]

/-- Witness for the amended C1: a present name is honoured, a valid
default is honoured, and a missing non-empty name raises the handled
not-found error. -/
theorem c1_get_instance_witness :
    get_instance cfgTwoWithDefault (some "a") = .ok instA ∧
    get_instance cfgTwoWithDefault none = .ok instB ∧
    get_instance cfgOneInstance (some "zzz") =
      .valueError (instanceNotFoundMsg "zzz") := by
  refine ⟨?_, ?_, ?_⟩
  · exact (c1_get_instance cfgTwoWithDefault).2.1 "a" instA (by decide) (by decide)
  · exact (c1_get_instance cfgTwoWithDefault).2.2.1 none "b" instB (by decide)
      (by decide) (by decide) (by decide)
  · exact (c1_get_instance cfgOneInstance).1 "zzz" (by decide) (by decide)

/-- Counterexample to C1 as stated: the empty string is a given name
argument that is not a key of instances, yet get_instance does not fail
with the not-found error: Python truthiness routes an empty name to the
no-name branch, which here returns the first instance. -/
theorem c1_get_instance_cex :
    get_instance cfgOneInstance (some "") = .ok instA ∧
    cfgOneInstance.instances.lookup "" = none := by
  exact ⟨by decide, by decide⟩

/-- C9 (amended): implicit partiality of get_instance under Python
truthiness. With a falsy name, a falsy default and no instances the call
raises StopIteration; with a falsy name and a non-empty default naming
an absent key it raises KeyError; and whenever instances is non-empty
and any non-empty default names a present key, every call returns an
instance or the handled not-found error. -/
theorem c9_unhandled_exceptions :
    (∀ cfg nm, cfg.instances = [] → truthyStrOpt nm = false →
      truthyStrOpt cfg.default_instance = false →
      get_instance cfg nm = .stopIteration) ∧
    (∀ cfg nm d, truthyStrOpt nm = false → cfg.default_instance = some d →
      d ≠ "" → cfg.instances.lookup d = none →
      get_instance cfg nm = .keyError d) ∧
    (∀ cfg nm, cfg.instances ≠ [] →
      (∀ d, cfg.default_instance = some d → d ≠ "" →
        (cfg.instances.lookup d).isSome = true) →
      (∃ i, get_instance cfg nm = .ok i) ∨
      (∃ m, get_instance cfg nm = .valueError m)) := by
  refine ⟨?_, ?_, ?_⟩
  · intro cfg nm hins hnm hdef
    unfold get_instance
    rw [if_neg (by simp [hnm]), if_neg (by simp [hdef]), hins]
  · intro cfg nm d hnm hd hdne hlk
    unfold get_instance
    rw [if_neg (by simp [hnm])]
    rw [if_pos (show truthyStrOpt cfg.default_instance = true by
      simp [hd, truthyStrOpt, hdne])]
    simp [hd, hlk]
  · intro cfg nm hne hdef
    unfold get_instance
    by_cases hnm : truthyStrOpt nm = true
    · rw [if_pos hnm]
      rcases hlk : cfg.instances.lookup (nm.getD "") with _ | i
      · right
        exact ⟨instanceNotFoundMsg (nm.getD ""), by simp [hlk]⟩
      · left
        exact ⟨i, by simp [hlk]⟩
    · rw [if_neg hnm]
      by_cases hdt : truthyStrOpt cfg.default_instance = true
      · rw [if_pos hdt]
        rcases hdi : cfg.default_instance with _ | d
        · rw [hdi] at hdt
          simp [truthyStrOpt] at hdt
        · have hdne : d ≠ "" := by
            rw [hdi] at hdt
            simpa [truthyStrOpt] using hdt
          have hsome := hdef d hdi hdne
          rcases hlk : cfg.instances.lookup d with _ | i
          · rw [hlk] at hsome
            simp at hsome
          · left
            exact ⟨i, by simp [hlk]⟩
      · rw [if_neg hdt]
        rcases hins : cfg.instances with _ | ⟨⟨k, i⟩, rest⟩
        · exact absurd hins hne
        · left
          exact ⟨i, rfl⟩

/-- Witness for the amended C9: an empty configuration raises
StopIteration, a bad non-empty default raises KeyError, and a well
formed configuration always returns an instance or the handled error. -/
theorem c9_unhandled_exceptions_witness :
    get_instance cfgNoInstances none = .stopIteration ∧
    get_instance cfgBadDefault none = .keyError "zzz" ∧
    ((∃ i, get_instance cfgTwoWithDefault none = .ok i) ∨
      (∃ m, get_instance cfgTwoWithDefault none = .valueError m)) := by
  refine ⟨?_, ?_, ?_⟩
  · exact c9_unhandled_exceptions.1 cfgNoInstances none (by decide) (by decide) (by decide)
  · exact c9_unhandled_exceptions.2.1 cfgBadDefault none "zzz" (by decide) (by decide)
      (by decide) (by decide)
  · exact c9_unhandled_exceptions.2.2 cfgTwoWithDefault none (by decide) (by decide)

/-- Counterexample to C9 as stated: a default_instance set to the empty
string names a key absent from instances, yet no KeyError is raised and
the call even succeeds: truthiness skips the empty default and the first
instance is returned, so the stated precondition is not necessary. -/
theorem c9_unhandled_exceptions_cex :
    cfgEmptyDefault.default_instance = some "" ∧
    cfgEmptyDefault.instances.lookup "" = none ∧
    get_instance cfgEmptyDefault none = .ok instA := by
  exact ⟨by decide, by decide, by decide⟩

theorem head_dropWhile_false (p : Char → Bool) :
    ∀ l : Str, ∀ c, (l.dropWhile p).head? = some c → p c = false := by
  intro l
  induction l with
  | nil => intro c h; simp at h
  | cons a t ih =>
    intro c h
    by_cases hp : p a = true
    · rw [List.dropWhile_cons_of_pos hp] at h
      exact ih c h
    · rw [List.dropWhile_cons_of_neg hp] at h
      simp only [List.head?_cons, Option.some.injEq] at h
      subst h
      simpa using hp

/-- C7 (amended): base-URL construction removes every trailing slash,
not exactly one: the configured URL is the base URL extended by some
number of trailing slashes, the base URL itself never ends in a slash,
and a URL without a trailing slash is left unchanged. -/
theorem c7_base_url (u : Str) :
    (∃ n, u = base_url u ++ List.replicate n '/') ∧
    ((base_url u).getLast? ≠ some '/') ∧
    (u.getLast? ≠ some '/' → base_url u = u) := by
  refine ⟨?_, ?_, ?_⟩
  · refine ⟨(u.reverse.takeWhile (fun c => c = '/')).length, ?_⟩
    have hall : ∀ b ∈ u.reverse.takeWhile (fun c => c = '/'), b = '/' := by
      intro b hb
      have hp := List.mem_takeWhile_imp hb
      simpa using hp
    have hrep := List.eq_replicate_of_mem hall
    calc u = u.reverse.reverse := (List.reverse_reverse u).symm
    _ = ((u.reverse.takeWhile (fun c => c = '/')) ++
          (u.reverse.dropWhile (fun c => c = '/'))).reverse := by
        rw [List.takeWhile_append_dropWhile]
    _ = (u.reverse.dropWhile (fun c => c = '/')).reverse ++
          (u.reverse.takeWhile (fun c => c = '/')).reverse := by
        rw [List.reverse_append]
    _ = base_url u ++ List.replicate (u.reverse.takeWhile (fun c => c = '/')).length '/' := by
        rw [base_url]
        conv_lhs => rw [hrep]
        rw [List.reverse_replicate]
  · intro hlast
    have hh : (u.reverse.dropWhile (fun c => c = '/')).head? = some '/' := by
      rw [← List.getLast?_reverse]
      exact hlast
    have := head_dropWhile_false (fun c => c = '/') u.reverse '/' hh
    simp at this
  · intro h
    rw [base_url]
    rcases hr : u.reverse with _ | ⟨c, t⟩
    · have hu : u = [] := by
        have := congrArg List.reverse hr
        simpa using this
      simp [hu]
    · have hc : c ≠ '/' := by
        intro e
        apply h
        rw [← List.head?_reverse, hr, e]
        rfl
      rw [List.dropWhile_cons_of_neg (by simpa using hc), ← hr,
        List.reverse_reverse]

/-- Witness for the amended C7: a URL with no trailing slash is kept
verbatim as the base URL. -/
theorem c7_base_url_witness :
    base_url (("http://x").data) = ("http://x").data :=
  (c7_base_url (("http://x").data)).2.2 (by decide)

/-- Counterexample to C7 as stated: a configured URL with two trailing
slashes loses both of them, while removing exactly one separator would
leave one slash behind. -/
theorem c7_base_url_cex :
    base_url (("http://x//").data) = ("http://x").data ∧
    (("http://x").data : Str) ≠ ("http://x/").data := by
  exact ⟨by decide, by decide⟩

theorem dictSet_lookup_self (d : List (String × String)) (k v : String) :
    (dictSet d k v).lookup k = some v := by
  induction d with
  | nil => simp [dictSet, List.lookup_cons]
  | cons p rest ih =>
    rcases p with ⟨k1, v1⟩
    by_cases h : k1 = k
    · simp [dictSet, h, List.lookup_cons]
    · simp [dictSet, h, List.lookup_cons, beq_false_of_ne (Ne.symm h), ih]

theorem dictSet_lookup_other (d : List (String × String)) (k v k2 : String)
    (h : k2 ≠ k) : (dictSet d k v).lookup k2 = d.lookup k2 := by
  induction d with
  | nil => simp [dictSet, List.lookup_cons, beq_false_of_ne h]
  | cons p rest ih =>
    rcases p with ⟨k1, v1⟩
    by_cases h1 : k1 = k
    · subst h1
      simp [dictSet, List.lookup_cons, beq_false_of_ne h]
    · by_cases h2 : k2 = k1
      · subst h2
        simp [dictSet, h1, List.lookup_cons]
      · simp [dictSet, h1, List.lookup_cons, beq_false_of_ne h2, ih]

theorem foldl_dictSet_not_mem (hs : List (String × String)) :
    ∀ d : List (String × String), ∀ k2 : String, (∀ p ∈ hs, p.1 ≠ k2) →
      (hs.foldl (fun d kv => dictSet d kv.1 kv.2) d).lookup k2 = d.lookup k2 := by
  induction hs with
  | nil => intro d k2 _; rfl
  | cons p rest ih =>
    intro d k2 h
    rw [List.foldl_cons]
    rw [ih _ k2 (fun q hq => h q (List.mem_cons_of_mem p hq))]
    exact dictSet_lookup_other d p.1 p.2 k2
      (fun e => h p (List.mem_cons_self p rest) e.symm)

theorem foldl_dictSet_mem (hs : List (String × String)) :
    ∀ d : List (String × String), ∀ k v : String,
      (hs.map Prod.fst).Nodup → (k, v) ∈ hs →
      (hs.foldl (fun d kv => dictSet d kv.1 kv.2) d).lookup k = some v := by
  induction hs with
  | nil => intro d k v _ hmem; simp at hmem
  | cons p rest ih =>
    intro d k v hnd hmem
    rw [List.map_cons] at hnd
    have hnotin := (List.nodup_cons.mp hnd).1
    have htl := (List.nodup_cons.mp hnd).2
    rw [List.foldl_cons]
    rcases List.mem_cons.mp hmem with he | hm
    · have hp : p = (k, v) := he.symm
      subst hp
      have hk : ∀ q ∈ rest, q.1 ≠ k := by
        intro q hq e
        have hin : q.1 ∈ rest.map Prod.fst := List.mem_map_of_mem Prod.fst hq
        rw [e] at hin
        exact hnotin hin
      rw [foldl_dictSet_not_mem rest _ k hk]
      exact dictSet_lookup_self d k v
    · exact ih _ k v htl hm

/-- C2 (amended): request-header construction. Accept application/json
is always derived (and survives unless a custom header overrides it);
exactly one credential header is derived, with Basic requiring username
and token both set to non-empty strings and Bearer requiring only a
non-empty token; a falsy token yields no Authorization header at all;
custom headers are merged last and override any derived entry, the
Authorization header included, on key conflict. -/
theorem c2_headers (cfg : ServiceConfig) :
    ((∀ p ∈ cfg.headers.getD [], p.1 ≠ "Accept") →
      (getHeaders cfg).lookup "Accept" = some "application/json") ∧
    (∀ u t, cfg.username = some u → u ≠ "" → cfg.token = some t → t ≠ "" →
      (∀ p ∈ cfg.headers.getD [], p.1 ≠ "Authorization") →
      (getHeaders cfg).lookup "Authorization" =
        some ("Basic " ++ b64encodeStr (u ++ ":" ++ t))) ∧
    (∀ t, truthyStrOpt cfg.username = false → cfg.token = some t → t ≠ "" →
      (∀ p ∈ cfg.headers.getD [], p.1 ≠ "Authorization") →
      (getHeaders cfg).lookup "Authorization" = some ("Bearer " ++ t)) ∧
    (truthyStrOpt cfg.token = false →
      (∀ p ∈ cfg.headers.getD [], p.1 ≠ "Authorization") →
      (getHeaders cfg).lookup "Authorization" = none) ∧
    (∀ hs k v, cfg.headers = some hs → (hs.map Prod.fst).Nodup → (k, v) ∈ hs →
      (getHeaders cfg).lookup k = some v) := by
  refine ⟨?_, ?_, ?_, ?_, ?_⟩
  · intro hcust
    simp only [getHeaders]
    rw [foldl_dictSet_not_mem _ _ _ hcust]
    by_cases h1 : (truthyStrOpt cfg.username && truthyStrOpt cfg.token) = true
    · rw [if_pos h1, dictSet_lookup_other _ _ _ _ (by decide)]
      rfl
    · rw [if_neg h1]
      by_cases h2 : truthyStrOpt cfg.token = true
      · rw [if_pos h2, dictSet_lookup_other _ _ _ _ (by decide)]
        rfl
      · rw [if_neg h2]
        rfl
  · intro u t hu hune ht htne hcust
    simp only [getHeaders]
    rw [foldl_dictSet_not_mem _ _ _ hcust]
    have h1 : (truthyStrOpt cfg.username && truthyStrOpt cfg.token) = true := by
      rw [hu, ht]
      simp [truthyStrOpt, hune, htne]
    rw [if_pos h1, hu, ht]
    simp only [Option.getD_some]
    exact dictSet_lookup_self _ _ _
  · intro t hun ht htne hcust
    simp only [getHeaders]
    rw [foldl_dictSet_not_mem _ _ _ hcust]
    rw [if_neg (by simp [hun])]
    have h2 : truthyStrOpt cfg.token = true := by
      rw [ht]
      simp [truthyStrOpt, htne]
    rw [if_pos h2, ht]
    simp only [Option.getD_some]
    exact dictSet_lookup_self _ _ _
  · intro htok hcust
    simp only [getHeaders]
    rw [foldl_dictSet_not_mem _ _ _ hcust]
    rw [if_neg (by simp [htok]), if_neg (by simp [htok])]
    rfl
  · intro hs k v hh hnd hmem
    simp only [getHeaders]
    rw [hh]
    simp only [Option.getD_some]
    exact foldl_dictSet_mem hs _ k v hnd hmem

/-- Witness for the amended C2: Basic for non-empty username and token,
Bearer for token only, no Authorization without a token, and a custom
Authorization entry overriding the derived Bearer header. -/
theorem c2_headers_witness :
    (getHeaders { url := "u", username := some "alice", token := some "pw" }).lookup
        "Authorization" = some ("Basic " ++ b64encodeStr ("alice:pw")) ∧
    (getHeaders { url := "u", token := some "tok" }).lookup "Authorization" =
      some ("Bearer tok") ∧
    (getHeaders { url := "u" }).lookup "Authorization" = none ∧
    (getHeaders { url := "u", token := some "tok", headers := some [("Authorization", "custom")] }).lookup "Authorization" =
      some "custom" := by
  refine ⟨?_, ?_, ?_, ?_⟩
  · exact (c2_headers { url := "u", username := some "alice", token := some "pw" }).2.1
      "alice" "pw" rfl (by decide) rfl (by decide) (by decide)
  · exact (c2_headers { url := "u", token := some "tok" }).2.2.1
      "tok" (by decide) rfl (by decide) (by decide)
  · exact (c2_headers { url := "u" }).2.2.2.1 (by decide) (by decide)
  · exact (c2_headers { url := "u", token := some "tok", headers := some [("Authorization", "custom")] }).2.2.2.2
      [("Authorization", "custom")] "Authorization" "custom" rfl (by decide) (by decide)

/-- Counterexample to C2 as stated: a username set to the empty string
together with a set token yields a Bearer header, not the Basic header
the claim requires whenever both fields are set. -/
theorem c2_headers_cex :
    (getHeaders { url := "u", username := some "", token := some "t" }).lookup
        "Authorization" = some ("Bearer t") ∧
    ("Bearer t" : String) ≠ "Basic " ++ b64encodeStr (":t") := by
  exact ⟨by decide, by decide⟩

theorem pyLower_digit_fix (c : Char) (h : c.isDigit = true) : pyLowerChar c = c := by
  unfold pyLowerChar
  by_cases hc1 : c = 'A'
  · rw [hc1] at h
    exact absurd h (by decide)
  rw [if_neg hc1]
  by_cases hc2 : c = 'B'
  · rw [hc2] at h
    exact absurd h (by decide)
  rw [if_neg hc2]
  by_cases hc3 : c = 'C'
  · rw [hc3] at h
    exact absurd h (by decide)
  rw [if_neg hc3]
  by_cases hc4 : c = 'D'
  · rw [hc4] at h
    exact absurd h (by decide)
  rw [if_neg hc4]
  by_cases hc5 : c = 'E'
  · rw [hc5] at h
    exact absurd h (by decide)
  rw [if_neg hc5]
  by_cases hc6 : c = 'F'
  · rw [hc6] at h
    exact absurd h (by decide)
  rw [if_neg hc6]
  by_cases hc7 : c = 'G'
  · rw [hc7] at h
    exact absurd h (by decide)
  rw [if_neg hc7]
  by_cases hc8 : c = 'H'
  · rw [hc8] at h
    exact absurd h (by decide)
  rw [if_neg hc8]
  by_cases hc9 : c = 'I'
  · rw [hc9] at h
    exact absurd h (by decide)
  rw [if_neg hc9]
  by_cases hc10 : c = 'J'
  · rw [hc10] at h
    exact absurd h (by decide)
  rw [if_neg hc10]
  by_cases hc11 : c = 'K'
  · rw [hc11] at h
    exact absurd h (by decide)
  rw [if_neg hc11]
  by_cases hc12 : c = 'L'
  · rw [hc12] at h
    exact absurd h (by decide)
  rw [if_neg hc12]
  by_cases hc13 : c = 'M'
  · rw [hc13] at h
    exact absurd h (by decide)
  rw [if_neg hc13]
  by_cases hc14 : c = 'N'
  · rw [hc14] at h
    exact absurd h (by decide)
  rw [if_neg hc14]
  by_cases hc15 : c = 'O'
  · rw [hc15] at h
    exact absurd h (by decide)
  rw [if_neg hc15]
  by_cases hc16 : c = 'P'
  · rw [hc16] at h
    exact absurd h (by decide)
  rw [if_neg hc16]
  by_cases hc17 : c = 'Q'
  · rw [hc17] at h
    exact absurd h (by decide)
  rw [if_neg hc17]
  by_cases hc18 : c = 'R'
  · rw [hc18] at h
    exact absurd h (by decide)
  rw [if_neg hc18]
  by_cases hc19 : c = 'S'
  · rw [hc19] at h
    exact absurd h (by decide)
  rw [if_neg hc19]
  by_cases hc20 : c = 'T'
  · rw [hc20] at h
    exact absurd h (by decide)
  rw [if_neg hc20]
  by_cases hc21 : c = 'U'
  · rw [hc21] at h
    exact absurd h (by decide)
  rw [if_neg hc21]
  by_cases hc22 : c = 'V'
  · rw [hc22] at h
    exact absurd h (by decide)
  rw [if_neg hc22]
  by_cases hc23 : c = 'W'
  · rw [hc23] at h
    exact absurd h (by decide)
  rw [if_neg hc23]
  by_cases hc24 : c = 'X'
  · rw [hc24] at h
    exact absurd h (by decide)
  rw [if_neg hc24]
  by_cases hc25 : c = 'Y'
  · rw [hc25] at h
    exact absurd h (by decide)
  rw [if_neg hc25]
  by_cases hc26 : c = 'Z'
  · rw [hc26] at h
    exact absurd h (by decide)
  rw [if_neg hc26]

theorem pyLower_fix_of_digit (c : Char) :
    (pyLowerChar c).isDigit = true → pyLowerChar c = c := by
  intro h
  unfold pyLowerChar at h ⊢
  by_cases hc1 : c = 'A'
  · rw [if_pos hc1] at h
    exact absurd h (by decide)
  rw [if_neg hc1] at h ⊢
  by_cases hc2 : c = 'B'
  · rw [if_pos hc2] at h
    exact absurd h (by decide)
  rw [if_neg hc2] at h ⊢
  by_cases hc3 : c = 'C'
  · rw [if_pos hc3] at h
    exact absurd h (by decide)
  rw [if_neg hc3] at h ⊢
  by_cases hc4 : c = 'D'
  · rw [if_pos hc4] at h
    exact absurd h (by decide)
  rw [if_neg hc4] at h ⊢
  by_cases hc5 : c = 'E'
  · rw [if_pos hc5] at h
    exact absurd h (by decide)
  rw [if_neg hc5] at h ⊢
  by_cases hc6 : c = 'F'
  · rw [if_pos hc6] at h
    exact absurd h (by decide)
  rw [if_neg hc6] at h ⊢
  by_cases hc7 : c = 'G'
  · rw [if_pos hc7] at h
    exact absurd h (by decide)
  rw [if_neg hc7] at h ⊢
  by_cases hc8 : c = 'H'
  · rw [if_pos hc8] at h
    exact absurd h (by decide)
  rw [if_neg hc8] at h ⊢
  by_cases hc9 : c = 'I'
  · rw [if_pos hc9] at h
    exact absurd h (by decide)
  rw [if_neg hc9] at h ⊢
  by_cases hc10 : c = 'J'
  · rw [if_pos hc10] at h
    exact absurd h (by decide)
  rw [if_neg hc10] at h ⊢
  by_cases hc11 : c = 'K'
  · rw [if_pos hc11] at h
    exact absurd h (by decide)
  rw [if_neg hc11] at h ⊢
  by_cases hc12 : c = 'L'
  · rw [if_pos hc12] at h
    exact absurd h (by decide)
  rw [if_neg hc12] at h ⊢
  by_cases hc13 : c = 'M'
  · rw [if_pos hc13] at h
    exact absurd h (by decide)
  rw [if_neg hc13] at h ⊢
  by_cases hc14 : c = 'N'
  · rw [if_pos hc14] at h
    exact absurd h (by decide)
  rw [if_neg hc14] at h ⊢
  by_cases hc15 : c = 'O'
  · rw [if_pos hc15] at h
    exact absurd h (by decide)
  rw [if_neg hc15] at h ⊢
  by_cases hc16 : c = 'P'
  · rw [if_pos hc16] at h
    exact absurd h (by decide)
  rw [if_neg hc16] at h ⊢
  by_cases hc17 : c = 'Q'
  · rw [if_pos hc17] at h
    exact absurd h (by decide)
  rw [if_neg hc17] at h ⊢
  by_cases hc18 : c = 'R'
  · rw [if_pos hc18] at h
    exact absurd h (by decide)
  rw [if_neg hc18] at h ⊢
  by_cases hc19 : c = 'S'
  · rw [if_pos hc19] at h
    exact absurd h (by decide)
  rw [if_neg hc19] at h ⊢
  by_cases hc20 : c = 'T'
  · rw [if_pos hc20] at h
    exact absurd h (by decide)
  rw [if_neg hc20] at h ⊢
  by_cases hc21 : c = 'U'
  · rw [if_pos hc21] at h
    exact absurd h (by decide)
  rw [if_neg hc21] at h ⊢
  by_cases hc22 : c = 'V'
  · rw [if_pos hc22] at h
    exact absurd h (by decide)
  rw [if_neg hc22] at h ⊢
  by_cases hc23 : c = 'W'
  · rw [if_pos hc23] at h
    exact absurd h (by decide)
  rw [if_neg hc23] at h ⊢
  by_cases hc24 : c = 'X'
  · rw [if_pos hc24] at h
    exact absurd h (by decide)
  rw [if_neg hc24] at h ⊢
  by_cases hc25 : c = 'Y'
  · rw [if_pos hc25] at h
    exact absurd h (by decide)
  rw [if_neg hc25] at h ⊢
  by_cases hc26 : c = 'Z'
  · rw [if_pos hc26] at h
    exact absurd h (by decide)
  rw [if_neg hc26] at h ⊢

theorem map_self_of_fixed (f : Char → Char) :
    ∀ l : Str, (∀ c ∈ l, f c = c) → l.map f = l := by
  intro l
  induction l with
  | nil => intro _; rfl
  | cons a t ih =>
    intro h
    rw [List.map_cons, h a (List.mem_cons_self a t),
      ih (fun c hc => h c (List.mem_cons_of_mem a hc))]

theorem takeWhile_append_first_false (p : Char → Bool) :
    ∀ nm rest : Str, (∀ c ∈ nm, p c = true) →
      (∀ c0, rest.head? = some c0 → p c0 = false) →
      (nm ++ rest).takeWhile p = nm ∧ (nm ++ rest).dropWhile p = rest := by
  intro nm
  induction nm with
  | nil =>
    intro rest _ hr
    rcases rest with _ | ⟨c, t⟩
    · exact ⟨rfl, rfl⟩
    · have hc := hr c rfl
      constructor
      · simp [List.takeWhile_cons, hc]
      · simp [List.dropWhile_cons, hc]
  | cons a nm1 ih =>
    intro rest h hr
    have ha : p a = true := h a (List.mem_cons_self a nm1)
    have h1 := ih rest (fun c hc => h c (List.mem_cons_of_mem a hc)) hr
    constructor
    · simp [List.takeWhile_cons, ha, h1.1]
    · simp [List.dropWhile_cons, ha, h1.2]

theorem take_takeWhile_length (p : Char → Bool) :
    ∀ l : Str, l.take (l.takeWhile p).length = l.takeWhile p := by
  intro l
  induction l with
  | nil => rfl
  | cons a t ih =>
    by_cases h : p a = true
    · simp [List.takeWhile_cons, h, ih]
    · simp [List.takeWhile_cons, h]

theorem parse_matcher_ok_shape (s : Str) (m : Matcher)
    (h : parse_matcher s = .ok m) :
    ∃ nm op v, s = nm ++ op ++ v ∧ nm ≠ [] ∧ (∀ c ∈ nm, c ∉ matcherOpChars) ∧
      op ∈ matcherOps := by
  unfold parse_matcher at h
  by_cases hnm : s.takeWhile matcherNonOp = []
  · rw [if_pos hnm] at h
    exact absurd h (by simp)
  · rw [if_neg hnm] at h
    have hs : s = s.takeWhile matcherNonOp ++ s.dropWhile matcherNonOp :=
      (List.takeWhile_append_dropWhile matcherNonOp s).symm
    have hchars : ∀ c ∈ s.takeWhile matcherNonOp, c ∉ matcherOpChars := by
      intro c hc
      have hp := List.mem_takeWhile_imp hc
      simpa [matcherNonOp] using hp
    split at h
    · rename_i v heq
      refine ⟨s.takeWhile matcherNonOp, ("=~").data, v, ?_, hnm, hchars,
        by simp [matcherOps]⟩
      rw [List.append_assoc]
      conv_lhs => rw [hs, heq]
      rfl
    · rename_i v heq
      refine ⟨s.takeWhile matcherNonOp, ("!~").data, v, ?_, hnm, hchars,
        by simp [matcherOps]⟩
      rw [List.append_assoc]
      conv_lhs => rw [hs, heq]
      rfl
    · rename_i v heq
      refine ⟨s.takeWhile matcherNonOp, ("!=").data, v, ?_, hnm, hchars,
        by simp [matcherOps]⟩
      rw [List.append_assoc]
      conv_lhs => rw [hs, heq]
      rfl
    · rename_i v hnotilde heq
      refine ⟨s.takeWhile matcherNonOp, ("=").data, v, ?_, hnm, hchars,
        by simp [matcherOps]⟩
      rw [List.append_assoc]
      conv_lhs => rw [hs, heq]
      rfl
    · exact absurd h (by simp)

theorem parse_matcher_error_msg (s : Str) (e : String)
    (h : parse_matcher s = .error e) : e = invalidMatcherMsg s := by
  unfold parse_matcher at h
  by_cases hnm : s.takeWhile matcherNonOp = []
  · rw [if_pos hnm] at h
    simp at h
    exact h.symm
  · rw [if_neg hnm] at h
    split at h <;> simp_all

theorem mapM_matcher_error (ms : List Str)
    (h : ∃ m ∈ ms, ∃ e, parse_matcher m = .error e) :
    ∃ e, ms.mapM parse_matcher = (Except.error e : Except String (List Matcher)) := by
  induction ms with
  | nil => simp at h
  | cons a as ih =>
    rw [List.mapM_cons]
    rcases h with ⟨m, hm, e, he⟩
    rcases List.mem_cons.mp hm with heq | hmem
    · subst heq
      exact ⟨e, by rw [he]; rfl⟩
    · rcases hpa : parse_matcher a with e1 | m1
      · exact ⟨e1, rfl⟩
      · obtain ⟨e2, he2⟩ := ih ⟨m, hmem, e, he⟩
        refine ⟨e2, ?_⟩
        rw [he2]
        rfl

/-- C5 (amended): matcher parsing with greedy operator selection. For a
string assembled from an operator-free nonempty name, one of the four
operators, and a value, parse_matcher returns that name and value with
isRegex and isEqual as the claim states, except that the two-character
operators win ties: when the single equals operator is followed by a
value starting with a tilde, the string is read as the regex-equals
operator instead. Every string that allows no such decomposition fails
with the descriptive parameter error, and any malformed matcher aborts
silence creation before a request payload exists. -/
theorem c5_matchers :
    (∀ nm op v, nm ≠ [] → (∀ c ∈ nm, c ∉ matcherOpChars) → op ∈ matcherOps →
      ¬(op = ("=").data ∧ v.head? = some '~') →
      parse_matcher (nm ++ op ++ v) =
        .ok { name := nm, value := v,
              isRegex := decide (op = ("=~").data ∨ op = ("!~").data),
              isEqual := decide (op = ("=").data ∨ op = ("=~").data) }) ∧
    (∀ s, (¬∃ nm op v, s = nm ++ op ++ v ∧ nm ≠ [] ∧
        (∀ c ∈ nm, c ∉ matcherOpChars) ∧ op ∈ matcherOps) →
      parse_matcher s = .error (invalidMatcherMsg s)) ∧
    (∀ ms dur now cb cm, (∃ m ∈ ms, ∃ e, parse_matcher m = .error e) →
      ∃ e, silence_create_payload ms dur now cb cm = .error e) := by
  refine ⟨?_, ?_, ?_⟩
  · intro nm op v hnm hchars hop hnot
    have hpc : ∀ c ∈ nm, matcherNonOp c = true := by
      intro c hc
      simpa [matcherNonOp] using hchars c hc
    have hop4 : op = ("=~").data ∨ op = ("!~").data ∨ op = ("!=").data ∨
        op = ("=").data := by
      simpa [matcherOps] using hop
    rcases hop4 with h | h | h | h
    · subst h
      have hd := takeWhile_append_first_false matcherNonOp nm ('=' :: '~' :: v) hpc
        (by intro c0 hc0; simp at hc0; subst hc0; decide)
      rw [List.append_assoc]
      show parse_matcher (nm ++ ('=' :: '~' :: v)) = _
      simp only [parse_matcher, hd.1, hd.2]
      rw [if_neg hnm]
      simp
    · subst h
      have hd := takeWhile_append_first_false matcherNonOp nm ('!' :: '~' :: v) hpc
        (by intro c0 hc0; simp at hc0; subst hc0; decide)
      rw [List.append_assoc]
      show parse_matcher (nm ++ ('!' :: '~' :: v)) = _
      simp only [parse_matcher, hd.1, hd.2]
      rw [if_neg hnm]
      simp
    · subst h
      have hd := takeWhile_append_first_false matcherNonOp nm ('!' :: '=' :: v) hpc
        (by intro c0 hc0; simp at hc0; subst hc0; decide)
      rw [List.append_assoc]
      show parse_matcher (nm ++ ('!' :: '=' :: v)) = _
      simp only [parse_matcher, hd.1, hd.2]
      rw [if_neg hnm]
      simp
    · subst h
      have hd := takeWhile_append_first_false matcherNonOp nm ('=' :: v) hpc
        (by intro c0 hc0; simp at hc0; subst hc0; decide)
      rw [List.append_assoc]
      show parse_matcher (nm ++ ('=' :: v)) = _
      simp only [parse_matcher, hd.1, hd.2]
      rw [if_neg hnm]
      rcases v with _ | ⟨c, t⟩
      · simp
      · have hc : c ≠ '~' := by
          intro e
          exact hnot ⟨rfl, by simp [e]⟩
        split
        · rename_i v1 heq
          injection heq with h1 h2
          injection h2 with h3 h4
          exact absurd h3 hc
        · rename_i v1 heq
          exact absurd heq (by simp)
        · rename_i v1 heq
          exact absurd heq (by simp)
        · rename_i v1 hnotilde heq
          injection heq with h1 h2
          rw [← h2]
          simp
        · rename_i hno1 hno2 hno3 hno4
          exact (hno4 (c :: t) rfl).elim
  · intro s hne
    rcases hp : parse_matcher s with e | m
    · rw [parse_matcher_error_msg s e hp]
    · exact absurd (parse_matcher_ok_shape s m hp) hne
  · intro ms dur now cb cm h
    obtain ⟨e, he⟩ := mapM_matcher_error ms h
    refine ⟨e, ?_⟩
    unfold silence_create_payload
    rw [he]
    rfl

/-- Witness for the amended C5 at the inputs of the spec, a malformed
matcher, and a silence creation that aborts on a malformed matcher. -/
theorem c5_matchers_witness :
    parse_matcher (("alertname=HighCPU").data) =
      .ok { name := ("alertname").data, value := ("HighCPU").data,
            isRegex := false, isEqual := true } ∧
    parse_matcher (("severity=~warning|critical").data) =
      .ok { name := ("severity").data, value := ("warning|critical").data,
            isRegex := true, isEqual := true } ∧
    parse_matcher (("foo!=bar").data) =
      .ok { name := ("foo").data, value := ("bar").data,
            isRegex := false, isEqual := false } ∧
    parse_matcher (("nooperator").data) =
      .error (invalidMatcherMsg (("nooperator").data)) ∧
    (∃ e, silence_create_payload [("bad").data] (("2h").data) 0 "me" "why" =
      .error e) := by
  refine ⟨?_, ?_, ?_, ?_, ?_⟩
  · have h := c5_matchers.1 (("alertname").data) (("=").data) (("HighCPU").data)
      (by decide) (by decide) (by decide) (by decide)
    exact h.trans (by decide)
  · have h := c5_matchers.1 (("severity").data) (("=~").data) (("warning|critical").data)
      (by decide) (by decide) (by decide) (by decide)
    exact h.trans (by decide)
  · have h := c5_matchers.1 (("foo").data) (("!=").data) (("bar").data)
      (by decide) (by decide) (by decide) (by decide)
    exact h.trans (by decide)
  · refine c5_matchers.2.1 (("nooperator").data) ?_
    rintro ⟨nm, op, v, heq, -, -, hop⟩
    have hmem : ∀ c ∈ op, c ∈ (("nooperator").data : Str) := by
      intro c hc
      rw [heq]
      exact List.mem_append.mpr (Or.inl (List.mem_append.mpr (Or.inr hc)))
    have hop4 : op = ("=~").data ∨ op = ("!~").data ∨ op = ("!=").data ∨
        op = ("=").data := by
      simpa [matcherOps] using hop
    rcases hop4 with h | h | h | h
    · subst h
      exact absurd (hmem '=' (by decide)) (by decide)
    · subst h
      exact absurd (hmem '!' (by decide)) (by decide)
    · subst h
      exact absurd (hmem '!' (by decide)) (by decide)
    · subst h
      exact absurd (hmem '=' (by decide)) (by decide)
  · exact c5_matchers.2.2 [("bad").data] (("2h").data) 0 "me" "why"
      ⟨("bad").data, by decide, invalidMatcherMsg (("bad").data), by decide⟩

/-- Counterexample to C5 as stated: the string a-equals-tilde-b is of
the claimed shape with name a, the single equals operator and value
tilde-b, for which the claim requires isRegex false and value tilde-b,
but the parser reads the two-character regex operator greedily and
returns isRegex true with value b. -/
theorem c5_matchers_cex :
    parse_matcher (("a=~b").data) =
      .ok { name := ("a").data, value := ("b").data,
            isRegex := true, isEqual := true } ∧
    (("a=~b").data : Str) = ("a").data ++ ("=").data ++ ("~b").data ∧
    (∀ c ∈ (("a").data : Str), c ∉ matcherOpChars) ∧
    ("=").data ∈ matcherOps := by
  exact ⟨by decide, by decide, by decide, by decide⟩

theorem durMatch_some (l ds : Str) (u : Char) (h : durMatch l = some (ds, u)) :
    l = ds ++ [u] ∧ ds ≠ [] ∧ (∀ c ∈ ds, c.isDigit = true) ∧ u ∈ durUnits := by
  simp only [durMatch] at h
  rcases hdr : l.drop (l.takeWhile Char.isDigit).length with _ | ⟨u1, t⟩
  · rw [hdr] at h
    simp at h
  · rcases t with _ | ⟨u2, t2⟩
    · rw [hdr] at h
      have h' : (if l.takeWhile Char.isDigit ≠ [] ∧ u1 ∈ durUnits then
          some (l.takeWhile Char.isDigit, u1) else none) = some (ds, u) := h
      by_cases hc : l.takeWhile Char.isDigit ≠ [] ∧ u1 ∈ durUnits
      · rw [if_pos hc] at h'
        simp only [Option.some.injEq, Prod.mk.injEq] at h'
        obtain ⟨h1, h2⟩ := h'
        subst h2
        refine ⟨?_, ?_, ?_, hc.2⟩
        · conv_lhs => rw [← List.take_append_drop (l.takeWhile Char.isDigit).length l]
          rw [take_takeWhile_length, hdr, h1]
        · rw [← h1]
          exact hc.1
        · intro c hcm
          rw [← h1] at hcm
          exact List.mem_takeWhile_imp hcm
      · rw [if_neg hc] at h'
        simp at h'
    · rw [hdr] at h
      simp at h

theorem durMatch_append (ds : Str) (u1 : Char) (hne : ds ≠ [])
    (hdig : ∀ c ∈ ds, c.isDigit = true) (hu : u1 ∈ durUnits)
    (hnd : u1.isDigit = false) :
    durMatch (ds ++ [u1]) = some (ds, u1) := by
  have hd := takeWhile_append_first_false Char.isDigit ds [u1] hdig
    (by intro c0 hc0; simp at hc0; subst hc0; exact hnd)
  simp only [durMatch]
  rw [hd.1, List.drop_left]
  show (if ds ≠ [] ∧ u1 ∈ durUnits then some (ds, u1) else none) = some (ds, u1)
  rw [if_pos ⟨hne, hu⟩]

theorem parse_duration_ok_shape (s : Str) (n : Nat)
    (h : parse_duration s = .ok n) :
    ∃ ds u, s = ds ++ [u] ∧ ds ≠ [] ∧ (∀ c ∈ ds, c.isDigit = true) ∧
      pyLowerChar u ∈ durUnits := by
  unfold parse_duration at h
  rcases hdm : durMatch (s.map pyLowerChar) with _ | ⟨ds1, u1⟩
  · rw [hdm] at h
    simp at h
  · obtain ⟨hl, hne1, hdig1, hu1⟩ := durMatch_some _ ds1 u1 hdm
    have hsne : s ≠ [] := by
      intro e
      rw [e] at hl
      simp at hl
    have hsplit : s = s.dropLast ++ [s.getLast hsne] :=
      (List.dropLast_append_getLast hsne).symm
    have hmap : s.dropLast.map pyLowerChar ++ [pyLowerChar (s.getLast hsne)] =
        ds1 ++ [u1] := by
      calc s.dropLast.map pyLowerChar ++ [pyLowerChar (s.getLast hsne)]
          = (s.dropLast ++ [s.getLast hsne]).map pyLowerChar := by
            rw [List.map_append]
            rfl
        _ = s.map pyLowerChar := by rw [← hsplit]
        _ = ds1 ++ [u1] := hl
    obtain ⟨hds, hu⟩ := List.append_inj' hmap (by simp)
    have hulast : pyLowerChar (s.getLast hsne) = u1 := by
      simpa using hu
    refine ⟨s.dropLast, s.getLast hsne, hsplit, ?_, ?_, by rw [hulast]; exact hu1⟩
    · intro e
      rw [e] at hds
      simp at hds
      exact hne1 hds
    · intro c hcm
      have hfc : pyLowerChar c ∈ ds1 := by
        rw [← hds]
        exact List.mem_map_of_mem pyLowerChar hcm
      have hdigfc := hdig1 _ hfc
      have hfix := pyLower_fix_of_digit c hdigfc
      rw [hfix] at hdigfc
      exact hdigfc

theorem parse_duration_error_msg (s : Str) (e : String)
    (h : parse_duration s = .error e) : e = invalidDurationMsg s := by
  unfold parse_duration at h
  rcases hdm : durMatch (s.map pyLowerChar) with _ | ⟨ds1, u1⟩
  · rw [hdm] at h
    simp at h
    exact h.symm
  · rw [hdm] at h
    simp at h

/-- C6 (amended): duration parsing, with the unit character matched
case-insensitively because the input is lowercased first. An integer of
ASCII digits followed by one character whose lowercase form is a unit
among s, m, h, d parses to the corresponding number of seconds; every
string that allows no such decomposition fails with the descriptive
parameter error; the default silence duration of the CLI option is the
two-hour string, which parses to 7200 seconds. -/
theorem c6_duration :
    (∀ ds u, ds ≠ [] → (∀ c ∈ ds, c.isDigit = true) → pyLowerChar u ∈ durUnits →
      parse_duration (ds ++ [u]) =
        .ok (digitsToNat ds * unitSeconds (pyLowerChar u))) ∧
    (∀ s : Str, (¬∃ ds u, s = ds ++ [u] ∧ ds ≠ [] ∧ (∀ c ∈ ds, c.isDigit = true) ∧
        pyLowerChar u ∈ durUnits) →
      parse_duration s = .error (invalidDurationMsg s)) ∧
    parse_duration silenceDurationDefault = .ok 7200 := by
  refine ⟨?_, ?_, by decide⟩
  · intro ds u hne hdig hu
    have hlow : (ds ++ [u]).map pyLowerChar = ds ++ [pyLowerChar u] := by
      rw [List.map_append]
      rw [map_self_of_fixed pyLowerChar ds
        (fun c hc => pyLower_digit_fix c (hdig c hc))]
      rfl
    have hnd : (pyLowerChar u).isDigit = false := by
      have h4 : pyLowerChar u = 's' ∨ pyLowerChar u = 'm' ∨ pyLowerChar u = 'h' ∨
          pyLowerChar u = 'd' := by simpa [durUnits] using hu
      rcases h4 with h | h | h | h
      all_goals rw [h]
      all_goals decide
    unfold parse_duration
    rw [hlow, durMatch_append ds (pyLowerChar u) hne hdig hu hnd]
  · intro s hne
    rcases hp : parse_duration s with e | n
    · rw [parse_duration_error_msg s e hp]
    · exact absurd (parse_duration_ok_shape s n hp) hne

/-- Witness for the amended C6 at the inputs of the spec: thirty minutes
and one day parse to their second counts, and an invalid unit fails with
the parameter error. -/
theorem c6_duration_witness :
    parse_duration (("30m").data) = .ok 1800 ∧
    parse_duration (("1d").data) = .ok 86400 ∧
    parse_duration (("2x").data) = .error (invalidDurationMsg (("2x").data)) := by
  refine ⟨?_, ?_, ?_⟩
  · have h := c6_duration.1 (("30").data) 'm' (by decide) (by decide) (by decide)
    exact h.trans (by decide)
  · have h := c6_duration.1 (("1").data) 'd' (by decide) (by decide) (by decide)
    exact h.trans (by decide)
  · refine c6_duration.2.1 (("2x").data) ?_
    rintro ⟨ds, u, heq, hne, hdig, hu⟩
    rcases ds with _ | ⟨a, t⟩
    · exact hne rfl
    · rcases t with _ | ⟨b, t2⟩
      · have ha : a = '2' := by
          have hh := congrArg (fun l => l.head?) heq
          simpa using hh.symm
        have hx : u = 'x' := by
          have hh := congrArg (fun l => l.getLast?) heq
          simpa using hh.symm
        subst hx
        exact absurd hu (by decide)
      · have hl := congrArg List.length heq
        simp [List.length_append] at hl

/-- Counterexample to C6 as stated: an upper-case unit character is not
among s, m, h, d, so the claim requires the parse to fail, but the
lowercasing in the source accepts it as two hours. -/
theorem c6_duration_cex :
    parse_duration (("2H").data) = .ok 7200 ∧ 'H' ∉ durUnits := by
  exact ⟨by decide, by decide⟩

/-- C8 (amended): service-config field handling. A missing or falsy
section gives no ServiceConfig; present url, token, username and header
values pass through the secret resolver; absent token, username and
headers stay None; but a token or username configured as a blank string
also becomes None, so a blank field is not distinguishable from an
absent one, and an absent url becomes the empty string rather than
staying unset. -/
theorem c8_service_config (env : Env) (r : OpRunner) :
    (parse_service_config env r none = .ok none) ∧
    (∀ u ru, resolveSecretStr env r u = .ok ru →
      parse_service_config env r (some { url := some u }) = .ok (some { url := ru })) ∧
    (∀ u ru, resolveSecretStr env r u = .ok ru →
      parse_service_config env r (some { url := some u, token := some "", username := some "" }) =
        .ok (some { url := ru })) ∧
    (∀ u t un k v ru rt run rv, t ≠ "" → un ≠ "" →
      resolveSecretStr env r u = .ok ru → resolveSecretStr env r t = .ok rt →
      resolveSecretStr env r un = .ok run → resolveSecretStr env r v = .ok rv →
      parse_service_config env r (some { url := some u, token := some t, username := some un, headers := [(k, v)] }) =
        .ok (some { url := ru, token := some rt, username := some run, headers := some [(k, rv)] })) := by
  refine ⟨rfl, ?_, ?_, ?_⟩
  · intro u ru hru
    simp only [parse_service_config]
    rw [if_neg (by simp [emptyRawService])]
    simp [hru, Option.getD, List.mapM.loop]
  · intro u ru hru
    simp only [parse_service_config]
    rw [if_neg (by simp [emptyRawService])]
    simp [hru, Option.getD, List.mapM.loop]
  · intro u t un k v ru rt run rv ht hun hru hrt hrun hrv
    simp only [parse_service_config]
    rw [if_neg (by simp [emptyRawService])]
    simp [hru, hrt, hrun, hrv, ht, hun, Option.getD, List.mapM.loop]
    rfl

/-- Witness for the amended C8: a section whose url and one header value
hold an environment placeholder and whose token and username are plain
non-empty strings resolves every field through the secret resolver. -/
theorem c8_service_config_witness :
    parse_service_config envFoo runnerMissing (some { url := some "${FOO}", token := some "tok", username := some "user", headers := [("X", "${FOO}")] }) =
      .ok (some { url := "bar", token := some "tok", username := some "user", headers := some [("X", "bar")] }) := by
  exact (c8_service_config envFoo runnerMissing).2.2.2 "${FOO}" "tok" "user" "X"
    "${FOO}" "bar" "tok" "user" "bar" (by decide) (by decide) (by decide) (by decide)
    (by decide) (by decide)

/-- Counterexample to C8 as stated: a token configured as a blank string
produces exactly the same ServiceConfig as an absent token, None in both
cases, so an unset field is not distinguishable from a field configured
as a blank string. -/
theorem c8_service_config_cex :
    parse_service_config [] runnerMissing (some { url := some "u", token := some "" }) =
      .ok (some { url := "u" }) ∧
    parse_service_config [] runnerMissing (some { url := some "u" }) =
      .ok (some { url := "u" }) := by
  exact ⟨by decide, by decide⟩
